import Mathlib

/-!
Shallow embedding of `Mixtape/mslds_solvers/hazan.py`.

The file models the two solver classes of the source:
`BoundedTraceSDPHazanSolver.solve` (Frank-Wolfe iteration over the unit-trace
PSD cone) and `GeneralSDPHazanSolver` (`solve` and `_solve`, the log-sum-exp
reduction of a general linear-constraint SDP to the bounded-trace problem).

Modelling conventions:
* Scalars are elements of an abstract `LinearOrderedField R` (instantiated at
  `ℚ` for executable witnesses and at `ℝ` where `exp`/`log` facts are needed);
  `numpy` matrices of shape `(dim, dim)` are `Matrix (Fin d) (Fin d) R`.
* `np.exp` and `np.log` are passed in as explicit function parameters
  `expf logf : R → R` so every definition stays executable.
* The two eigensolver calls (`scipy.sparse.linalg.eigs` and `np.linalg.eig`)
  are external library calls; they are modelled by an oracle `EigEnv`
  recording exactly the arguments the source supplies, and returning
  complex-typed results (pairs of real and imaginary parts) as numpy does.
* Python exceptions are modelled with `Except PyError`; field division is
  Lean's total division (the `m = 0` corner, where Python would divide by
  zero, is exercised by no claim).
* The source's `while FAIL` loop has no iteration bound, so its embedding
  takes a fuel parameter and returns `none` when the fuel is exhausted.
-/

namespace Hazan

/-- Python runtime errors relevant to this module: the `TypeError` raised by
a call whose argument count does not match the callee, and the
`DimensionMismatch` error that the spec's error-handling section asks for. -/
inductive PyError where
  | typeError
  | dimensionMismatch
  deriving DecidableEq

/-- A complex scalar as numpy eigensolvers return it: a real and an
imaginary part. -/
structure CVal (R : Type) where
  re : R
  im : R
  deriving DecidableEq

/-- The `which` argument of `scipy.sparse.linalg.eigs`; the source always
passes the string `LR` (largest real part). -/
inductive EigsWhich where
  | LR
  deriving DecidableEq

/-- Oracle for the two numpy/scipy eigensolvers used by the source.
`eigs A k tol which` models `scipy.sparse.linalg.eigs(A, k=k, tol=tol,
which=which)` (with `tol = none` meaning the solver default) and returns the
single requested eigenvector; `eig A` models `np.linalg.eig(A)` and returns
the full spectrum as a list of (eigenvalue, eigenvector) pairs. -/
structure EigEnv (R : Type) (d : ℕ) where
  eigs : Matrix (Fin d) (Fin d) R → ℕ → Option R → EigsWhich → (Fin d → CVal R)
  eig : Matrix (Fin d) (Fin d) R → List (CVal R × (Fin d → CVal R))

variable {R : Type} [LinearOrderedField R] {d : ℕ}

/-- Helper for `argmaxIdx`: scan the tail keeping the index and the value of
the current maximum; a strictly larger value updates the maximum, so ties
keep the earliest index, as `np.argmax` does. -/
def argmaxAux : List R → ℕ → ℕ → R → ℕ
  | [], _, besti, _ => besti
  | x :: xs, i, besti, bestv =>
    if bestv < x then argmaxAux xs (i + 1) i x else argmaxAux xs (i + 1) besti bestv

/-- Index of the first maximal element of a list, as `np.argmax` computes it
(0 on the empty list, which `np.argmax` rejects; no claim exercises that). -/
def argmaxIdx : List R → ℕ
  | [] => 0
  | x :: xs => argmaxAux xs 1 0 x

/-- Whether a matrix is positive semidefinite: every quadratic form value is
nonnegative. -/
def IsPSD (X : Matrix (Fin d) (Fin d) R) : Prop :=
  ∀ y : Fin d → R, 0 ≤ Matrix.dotProduct y (X.mulVec y)

namespace BoundedTraceSDPHazanSolver

/-- Embedding of the initialization of `BoundedTraceSDPHazanSolver.solve`:
`v = random.rand(dim, 1); X = np.outer(v, v); X /= np.trace(X)`.  The random
draw is modelled by taking `v` as a parameter. -/
def initX (v : Fin d → R) : Matrix (Fin d) (Fin d) R :=
  (Matrix.trace (Matrix.vecMulVec v v))⁻¹ • Matrix.vecMulVec v v

/-- Embedding of lines 78-90 of the source: the per-iteration extraction of
the direction `vk` from the gradient.  For `dim >= 3` the iterative solver
`linalg.eigs(grad, k=1, tol=epsk, which='LR')` is called, with
`epsk = Cf/(k+1)**2` only when `Cf` is given; otherwise `np.linalg.eig` is
called and the eigenvector at the argmax of the real parts of the
eigenvalues is picked.  Afterwards `vk = np.real(vk)` discards the imaginary
component in both branches. -/
def extractDir (env : EigEnv R d) (dim : ℕ) (Cf : Option R) (k : ℕ)
    (grad : Matrix (Fin d) (Fin d) R) : Fin d → R :=
  let vkC : Fin d → CVal R :=
    if 3 ≤ dim then
      match Cf with
      | some c => env.eigs grad 1 (some (c / ((k : R) + 1) ^ 2)) EigsWhich.LR
      | none => env.eigs grad 1 none EigsWhich.LR
    else
      let pairs := env.eig grad
      (pairs.getD (argmaxIdx (pairs.map fun p => p.1.re)) ⟨⟨0, 0⟩, fun _ => ⟨0, 0⟩⟩).2
  fun j => (vkC j).re

/-- One iteration of the `for k in range(N_iter)` loop of
`BoundedTraceSDPHazanSolver.solve`: evaluate the gradient (whose exceptions
propagate), extract the direction `vk`, and perform the update
`alphak = min(1., 2./(k+1)); X = X + alphak * (np.outer(vk, vk) - X)`. -/
def solveStep (gradf : Matrix (Fin d) (Fin d) R → Except PyError (Matrix (Fin d) (Fin d) R))
    (env : EigEnv R d) (dim : ℕ) (Cf : Option R) (k : ℕ)
    (X : Matrix (Fin d) (Fin d) R) : Except PyError (Matrix (Fin d) (Fin d) R) :=
  match gradf X with
  | .error e => .error e
  | .ok grad =>
    let vk := extractDir env dim Cf k grad
    let alphak : R := min 1 (2 / ((k : R) + 1))
    .ok (X + alphak • (Matrix.vecMulVec vk vk - X))

/-- The loop of `BoundedTraceSDPHazanSolver.solve`, running `n` iterations
starting at loop counter `k`. -/
def solveFrom (gradf : Matrix (Fin d) (Fin d) R → Except PyError (Matrix (Fin d) (Fin d) R))
    (env : EigEnv R d) (dim : ℕ) (Cf : Option R) :
    ℕ → ℕ → Matrix (Fin d) (Fin d) R → Except PyError (Matrix (Fin d) (Fin d) R)
  | _, 0, X => .ok X
  | k, n + 1, X =>
    match solveStep gradf env dim Cf k X with
    | .error e => .error e
    | .ok Y => solveFrom gradf env dim Cf (k + 1) n Y

/-- Embedding of `BoundedTraceSDPHazanSolver.solve(f, gradf, dim, N_iter,
Cf)`.  The parameter `f` of the source is never used in the body of `solve`
and is omitted; the random vector `v` of the initialization is a parameter. -/
def solve (gradf : Matrix (Fin d) (Fin d) R → Except PyError (Matrix (Fin d) (Fin d) R))
    (env : EigEnv R d) (dim : ℕ) (Cf : Option R) (v : Fin d → R) (Niter : ℕ) :
    Except PyError (Matrix (Fin d) (Fin d) R) :=
  solveFrom gradf env dim Cf 0 Niter (initX v)

end BoundedTraceSDPHazanSolver

/-- Elementwise product of matrices, as the numpy `*` operator computes it. -/
def ewMul (A B : Matrix (Fin d) (Fin d) R) : Matrix (Fin d) (Fin d) R :=
  fun i j => A i j * B i j

/-- Elementwise quotient of matrices, as the numpy `/` operator computes it
(Lean's total division stands in for float division). -/
def ewDiv (A B : Matrix (Fin d) (Fin d) R) : Matrix (Fin d) (Fin d) R :=
  fun i j => A i j / B i j

/-- Elementwise application of `np.exp` to a matrix. -/
def ewExp (expf : R → R) (A : Matrix (Fin d) (Fin d) R) : Matrix (Fin d) (Fin d) R :=
  fun i j => expf (A i j)

/-- Numpy broadcasting of `A - b` for a matrix `A` and scalar `b`: the scalar
is subtracted from every entry. -/
def pySubScalar (A : Matrix (Fin d) (Fin d) R) (b : R) : Matrix (Fin d) (Fin d) R :=
  fun i j => A i j - b

namespace GeneralSDPHazanSolver

/-- Embedding of the closure `f` of `GeneralSDPHazanSolver._solve`
(lines 140-151 of the source):

`s += np.exp(M*(np.trace(np.dot(Ai, X) - bi)))` with `Ai = X_trace * As[i]`,
`bi = bs[i]`, followed by `return -(1.0/M) * np.log(s)`.

Note that `bi` sits inside the argument of `np.trace`, so numpy broadcasts
it over all entries of `np.dot(Ai, X)` before the trace is taken. -/
def fCode (expf logf : R → R) (As : List (Matrix (Fin d) (Fin d) R)) (bs : List R)
    (Xtr M : R) (X : Matrix (Fin d) (Fin d) R) : R :=
  let s := (List.range As.length).foldl
    (fun s i =>
      let Ai := Xtr • As.getD i 0
      let bi := bs.getD i 0
      s + expf (M * Matrix.trace (pySubScalar (Ai * X) bi))) 0;
  -(1 / M) * logf s

/-- The surrogate objective as the spec and the source docstrings state it:
`f(X) = -(1/M) · log( Σ_i exp( M · (Tr(X_trace·A_i · X) − b_i) ) )`, with
`b_i` subtracted from the trace rather than broadcast inside it.  Declared
for comparison against `fCode`. -/
def fDoc (expf logf : R → R) (As : List (Matrix (Fin d) (Fin d) R)) (bs : List R)
    (Xtr M : R) (X : Matrix (Fin d) (Fin d) R) : R :=
  let s := (List.range As.length).foldl
    (fun s i =>
      let Ai := Xtr • As.getD i 0
      let bi := bs.getD i 0
      s + expf (M * (Matrix.trace (Ai * X) - bi))) 0;
  -(1 / M) * logf s

/-- The loop of the closure `gradf` of `GeneralSDPHazanSolver._solve`
(lines 160-170 of the source), accumulating `num` and `denom`.  In the
`dim >= 2` branch the source evaluates `np.trace(Ai, X)`, which passes the
matrix `X` as the integer `offset` argument of `np.trace`; numpy rejects
that with a `TypeError`, so the iteration raises instead of accumulating.
In the `else` branch everything is elementwise numpy arithmetic. -/
def gradfLoop (expf : R → R) (As : List (Matrix (Fin d) (Fin d) R)) (bs : List R)
    (Xtr M : R) (dim : ℕ) (X : Matrix (Fin d) (Fin d) R) :
    List ℕ → Matrix (Fin d) (Fin d) R × Matrix (Fin d) (Fin d) R →
    Except PyError (Matrix (Fin d) (Fin d) R × Matrix (Fin d) (Fin d) R)
  | [], acc => .ok acc
  | i :: is, acc =>
    let Ai := Xtr • As.getD i 0
    let bi := bs.getD i 0
    if 2 ≤ dim then .error .typeError
    else
      let e := ewExp expf (M • pySubScalar (ewMul Ai X) bi)
      gradfLoop expf As bs Xtr M dim X is
        (acc.1 + ewMul e (M • Ai.transpose), acc.2 + e)

/-- Embedding of the closure `gradf` of `GeneralSDPHazanSolver._solve`
(lines 153-171 of the source): run the accumulation loop over
`range(len(As))` and return `(-1.0/M) * num/denom`. -/
def gradfCode (expf : R → R) (As : List (Matrix (Fin d) (Fin d) R)) (bs : List R)
    (Xtr M : R) (dim : ℕ) (X : Matrix (Fin d) (Fin d) R) :
    Except PyError (Matrix (Fin d) (Fin d) R) :=
  match gradfLoop expf As bs Xtr M dim X (List.range As.length) (0, 0) with
  | .error e => .error e
  | .ok acc => .ok (ewDiv ((-(1) / M) • acc.1) acc.2)

/-- Embedding of `GeneralSDPHazanSolver._solve(self, As, bs, eps, dim,
X_trace)`: set `m = len(As)`, `M = np.max((np.log(m)/eps, 1.))`,
`K = int(1/eps)`, run the bounded-trace solver on the closures for `K`
iterations (the source passes no `Cf`, hence `none`), evaluate `fX = f(X)`
at the unit-trace result, rescale `X = X_trace * X`, and return `(X, fX)`.
The random initial vector `v` of the inner solver and the eigensolver
oracle `env` are parameters; `int(1/eps)` is `Int.toNat ⌊1/eps⌋`, which
agrees with Python's truncation for `eps > 0` and, for negative quotients,
yields the same empty iteration range as `range` does. -/
def _solve [FloorRing R] (expf logf : R → R) (env : EigEnv R d) (v : Fin d → R)
    (As : List (Matrix (Fin d) (Fin d) R)) (bs : List R) (eps : R) (dim : ℕ)
    (Xtr : R) : Except PyError (Matrix (Fin d) (Fin d) R × R) :=
  let m := As.length
  let M := max (logf (m : R) / eps) 1
  let K := (⌊(1 : R) / eps⌋).toNat
  match BoundedTraceSDPHazanSolver.solve (gradfCode expf As bs Xtr M dim) env dim none v K with
  | .error e => .error e
  | .ok X => .ok (Xtr • X, fCode expf logf As bs Xtr M X)

/-- Number of parameters in the declaration
`def _solve(self, As, bs, eps, dim, X_trace)`: six, counting `self`. -/
def solveDeclaredParamCount : ℕ := 6

/-- Number of argument slots filled by the call
`self._solve(self, As, bs, eps, dim, X_trace)` in `solve`: the bound-method
receiver plus the six explicit arguments, seven in total. -/
def solveSuppliedArgCount : ℕ := 7

/-- Embedding of `GeneralSDPHazanSolver.solve(self, As, bs, eps, dim)`:

```
FAIL = True
while FAIL:
    X_trace = 1.
    X, fX = self._solve(self, As, bs, eps, dim, X_trace)
    if fX > -eps:
        FAIL = False
```

Because the call supplies seven arguments to the six-parameter `_solve`,
CPython raises `TypeError` at the call site; the embedding performs that
arity comparison explicitly before running the inner solve.  The inner
solve itself is a parameter `inner` (its intended instantiation is
`_solve`), and `As`/`bs` are values of arbitrary types, since the body
never inspects them before the call fails.  The `while` loop has no bound,
so the embedding takes fuel and returns `none` on exhaustion. -/
def solve {A B C : Type} (As : A) (bs : B) (eps : R) (dim : ℕ)
    (inner : A → B → R → ℕ → R → Except PyError (C × R)) :
    ℕ → Option (Except PyError Unit)
  | 0 => none
  | fuel + 1 =>
    let Xtr : R := 1
    if solveSuppliedArgCount = solveDeclaredParamCount then
      match inner As bs eps dim Xtr with
      | .error e => some (.error e)
      | .ok (_, fX) => if -eps < fX then some (.ok ()) else solve As bs eps dim inner fuel
    else some (.error .typeError)

end GeneralSDPHazanSolver

/-- Decidable equality of `Except` values, used to evaluate the embedding on
concrete inputs. -/
instance {ε α : Type} [DecidableEq ε] [DecidableEq α] : DecidableEq (Except ε α)
  | .error a, .error b =>
    if h : a = b then .isTrue (by rw [h]) else .isFalse (by simp [h])
  | .ok a, .ok b =>
    if h : a = b then .isTrue (by rw [h]) else .isFalse (by simp [h])
  | .error _, .ok _ => .isFalse (by simp)
  | .ok _, .error _ => .isFalse (by simp)

/-- A concrete eigensolver oracle over `ℚ` for evaluating the embedding: the
iterative solver always reports the all-ones direction, and the dense solver
reports a single eigenpair with eigenvalue `0` and the all-ones eigenvector. -/
def trivEnv (d : ℕ) : EigEnv ℚ d :=
  ⟨fun _ _ _ _ => fun _ => ⟨1, 0⟩, fun _ => [(⟨0, 0⟩, fun _ => ⟨1, 0⟩)]⟩

namespace BoundedTraceSDPHazanSolver

theorem trace_vecMulVec (v : Fin d → R) :
    Matrix.trace (Matrix.vecMulVec v v) = Matrix.dotProduct v v := rfl

theorem vecMulVec_mulVec_eq (v y : Fin d → R) :
    (Matrix.vecMulVec v v).mulVec y = fun i => v i * Matrix.dotProduct v y := by
  funext i
  simp [Matrix.mulVec, Matrix.dotProduct, Matrix.vecMulVec_apply, Finset.mul_sum, mul_assoc]

theorem dot_mulVec_vecMulVec (v y : Fin d → R) :
    Matrix.dotProduct y ((Matrix.vecMulVec v v).mulVec y) =
      Matrix.dotProduct v y * Matrix.dotProduct v y := by
  rw [vecMulVec_mulVec_eq]
  calc Matrix.dotProduct y (fun i => v i * Matrix.dotProduct v y)
      = ∑ i, y i * (v i * Matrix.dotProduct v y) := rfl
    _ = ∑ i, (v i * y i) * Matrix.dotProduct v y := by
        exact Finset.sum_congr rfl fun i _ => by ring
    _ = (∑ i, v i * y i) * Matrix.dotProduct v y := by rw [Finset.sum_mul]
    _ = _ := rfl

theorem initX_isPSD (v : Fin d → R) : IsPSD (initX v) := by
  intro y
  unfold initX
  rw [Matrix.smul_mulVec_assoc, Matrix.dotProduct_smul, smul_eq_mul]
  refine mul_nonneg (inv_nonneg.mpr ?_) ?_
  · rw [trace_vecMulVec]
    exact Finset.sum_nonneg fun i _ => mul_self_nonneg _
  · rw [dot_mulVec_vecMulVec]
    exact mul_self_nonneg _

theorem trace_initX (v : Fin d → R) (hv : v ≠ 0) : Matrix.trace (initX v) = 1 := by
  unfold initX
  rw [Matrix.trace_smul, trace_vecMulVec, smul_eq_mul, inv_mul_cancel₀]
  exact fun h => hv (Matrix.dotProduct_self_eq_zero.mp h)

theorem solveStep_inv {gradf : Matrix (Fin d) (Fin d) R → Except PyError (Matrix (Fin d) (Fin d) R)}
    {env : EigEnv R d} {dim : ℕ} {Cf : Option R} {k : ℕ}
    {X Y : Matrix (Fin d) (Fin d) R}
    (hu : ∀ k g, Matrix.dotProduct (extractDir env dim Cf k g) (extractDir env dim Cf k g) = 1)
    (hX : IsPSD X ∧ Matrix.trace X = 1)
    (h : solveStep gradf env dim Cf k X = .ok Y) : IsPSD Y ∧ Matrix.trace Y = 1 := by
  unfold solveStep at h
  split at h
  · cases h
  · rename_i g hg
    injection h with h
    subst h
    have hα0 : (0 : R) ≤ min 1 (2 / ((k : R) + 1)) :=
      le_min zero_le_one (by positivity)
    have hα1 : min (1 : R) (2 / ((k : R) + 1)) ≤ 1 := min_le_left _ _
    constructor
    · intro y
      rw [Matrix.add_mulVec, Matrix.smul_mulVec_assoc, Matrix.sub_mulVec,
        Matrix.dotProduct_add, Matrix.dotProduct_smul, Matrix.dotProduct_sub,
        smul_eq_mul, dot_mulVec_vecMulVec]
      have h1 := hX.1 y
      nlinarith [mul_self_nonneg
        (Matrix.dotProduct (extractDir env dim Cf k g) y)]
    · rw [Matrix.trace_add, Matrix.trace_smul, Matrix.trace_sub, trace_vecMulVec,
        hu k g, hX.2, smul_eq_mul]
      ring

theorem solveFrom_inv {gradf : Matrix (Fin d) (Fin d) R → Except PyError (Matrix (Fin d) (Fin d) R)}
    {env : EigEnv R d} {dim : ℕ} {Cf : Option R}
    (hu : ∀ k g, Matrix.dotProduct (extractDir env dim Cf k g) (extractDir env dim Cf k g) = 1) :
    ∀ n k (X Y : Matrix (Fin d) (Fin d) R), (IsPSD X ∧ Matrix.trace X = 1) →
      solveFrom gradf env dim Cf k n X = .ok Y → IsPSD Y ∧ Matrix.trace Y = 1 := by
  intro n
  induction n with
  | zero =>
    intro k X Y hX h
    unfold solveFrom at h
    injection h with h
    subst h
    exact hX
  | succ n ih =>
    intro k X Y hX h
    unfold solveFrom at h
    split at h
    · cases h
    · rename_i Z hZ
      exact ih (k + 1) Z Y (solveStep_inv hu hX hZ) h

/-- C1: for every gradient oracle, eigensolver environment, `dim`, optional
curvature constant, nonzero initial random vector and iteration count, the
matrix held by `BoundedTraceSDPHazanSolver.solve` is positive semidefinite
with unit trace after initialization (`n = 0`) and after each update step
(`n` iterations for every `n`), provided every extracted direction `vk` has
unit norm; in particular the returned matrix is PSD with trace 1. -/
theorem solve_isPSD_trace_one
    (gradf : Matrix (Fin d) (Fin d) R → Except PyError (Matrix (Fin d) (Fin d) R))
    (env : EigEnv R d) (dim : ℕ) (Cf : Option R) (v : Fin d → R) (n : ℕ)
    (X : Matrix (Fin d) (Fin d) R)
    (hv : v ≠ 0)
    (hu : ∀ k g, Matrix.dotProduct (extractDir env dim Cf k g) (extractDir env dim Cf k g) = 1)
    (h : solve gradf env dim Cf v n = .ok X) :
    IsPSD X ∧ Matrix.trace X = 1 :=
  solveFrom_inv hu n 0 (initX v) X ⟨initX_isPSD v, trace_initX v hv⟩ h

/-- Witness for C1 at a concrete input: dimension 1, the constant oracle
`trivEnv`, initial vector `![1]`, zero iterations. -/
theorem solve_isPSD_trace_one_witness :
    IsPSD (initX ![(1 : ℚ)]) ∧ Matrix.trace (initX ![(1 : ℚ)]) = 1 :=
  solve_isPSD_trace_one (fun X => .ok X) (trivEnv 1) 1 none ![(1 : ℚ)] 0 (initX ![(1 : ℚ)])
    (by
      intro h
      have h0 := congrFun h 0
      norm_num at h0)
    (by
      intro k g
      norm_num [extractDir, trivEnv, argmaxIdx, argmaxAux, Matrix.dotProduct])
    rfl

theorem solveFrom_succ
    (gradf : Matrix (Fin d) (Fin d) R → Except PyError (Matrix (Fin d) (Fin d) R))
    (env : EigEnv R d) (dim : ℕ) (Cf : Option R) :
    ∀ n k (X : Matrix (Fin d) (Fin d) R),
      solveFrom gradf env dim Cf k (n + 1) X =
        match solveFrom gradf env dim Cf k n X with
        | .error e => .error e
        | .ok Y => solveStep gradf env dim Cf (k + n) Y := by
  intro n
  induction n with
  | zero =>
    intro k X
    cases hs : solveStep gradf env dim Cf k X with
    | error e =>
      show (match solveStep gradf env dim Cf k X with
        | Except.error e => Except.error e
        | Except.ok Z => solveFrom gradf env dim Cf (k + 1) 0 Z) =
          solveStep gradf env dim Cf k X
      rw [hs]
    | ok Y =>
      show (match solveStep gradf env dim Cf k X with
        | Except.error e => Except.error e
        | Except.ok Z => solveFrom gradf env dim Cf (k + 1) 0 Z) =
          solveStep gradf env dim Cf k X
      rw [hs]
      rfl
  | succ n ih =>
    intro k X
    cases hs : solveStep gradf env dim Cf k X with
    | error e =>
      have hL : solveFrom gradf env dim Cf k (n + 1 + 1) X = Except.error e := by
        show (match solveStep gradf env dim Cf k X with
          | Except.error e => Except.error e
          | Except.ok Z => solveFrom gradf env dim Cf (k + 1) (n + 1) Z) = Except.error e
        rw [hs]
      have hR : solveFrom gradf env dim Cf k (n + 1) X = Except.error e := by
        show (match solveStep gradf env dim Cf k X with
          | Except.error e => Except.error e
          | Except.ok Z => solveFrom gradf env dim Cf (k + 1) n Z) = Except.error e
        rw [hs]
      rw [hL, hR]
    | ok Y =>
      have hL : solveFrom gradf env dim Cf k (n + 1 + 1) X =
          solveFrom gradf env dim Cf (k + 1) (n + 1) Y := by
        show (match solveStep gradf env dim Cf k X with
          | Except.error e => Except.error e
          | Except.ok Z => solveFrom gradf env dim Cf (k + 1) (n + 1) Z) = _
        rw [hs]
      have hR : solveFrom gradf env dim Cf k (n + 1) X =
          solveFrom gradf env dim Cf (k + 1) n Y := by
        show (match solveStep gradf env dim Cf k X with
          | Except.error e => Except.error e
          | Except.ok Z => solveFrom gradf env dim Cf (k + 1) n Z) = _
        rw [hs]
      rw [hL, hR, ih (k + 1) Y]
      have hkn : k + 1 + n = k + (n + 1) := by omega
      rw [hkn]

/-- C2: at every iteration `k`, `BoundedTraceSDPHazanSolver.solve` computes
the step size `min(1, 2/(k+1))` and updates the iterate exactly as
`X ← X + alpha_k · (vk vkᵀ − X)`, where `vk` is the direction extracted from
the gradient of the current iterate: running `n + 1` iterations equals
running `n` iterations and then applying that update with `k = n`. -/
theorem solve_succ_step
    (gradf : Matrix (Fin d) (Fin d) R → Except PyError (Matrix (Fin d) (Fin d) R))
    (env : EigEnv R d) (dim : ℕ) (Cf : Option R) (v : Fin d → R) (n : ℕ)
    (Xn g : Matrix (Fin d) (Fin d) R)
    (h1 : solve gradf env dim Cf v n = .ok Xn)
    (h2 : gradf Xn = .ok g) :
    solve gradf env dim Cf v (n + 1) =
      .ok (Xn + min 1 (2 / ((n : R) + 1)) •
        (Matrix.vecMulVec (extractDir env dim Cf n g) (extractDir env dim Cf n g) - Xn)) := by
  unfold solve at h1 ⊢
  rw [solveFrom_succ, h1]
  show solveStep gradf env dim Cf (0 + n) (Xn) = _
  rw [Nat.zero_add]
  unfold solveStep
  rw [h2]

/-- Witness for C2 at a concrete input: dimension 1, identity gradient,
`trivEnv`, initial vector `![1]`, iteration `k = 0`. -/
theorem solve_succ_step_witness :
    solve (fun X => .ok X) (trivEnv 1) 1 none ![(1 : ℚ)] 1 =
      .ok (initX ![(1 : ℚ)] + min 1 (2 / (((0 : ℕ) : ℚ) + 1)) •
        (Matrix.vecMulVec (extractDir (trivEnv 1) 1 none 0 (initX ![(1 : ℚ)]))
          (extractDir (trivEnv 1) 1 none 0 (initX ![(1 : ℚ)])) - initX ![(1 : ℚ)])) :=
  solve_succ_step (fun X => .ok X) (trivEnv 1) 1 none ![(1 : ℚ)] 0
    (initX ![(1 : ℚ)]) (initX ![(1 : ℚ)]) rfl rfl

end BoundedTraceSDPHazanSolver

namespace BoundedTraceSDPHazanSolver

/-- C7: in every iteration of `BoundedTraceSDPHazanSolver.solve` (whose step
obtains its direction from `extractDir`): when `dim ≥ 3` the direction comes
from the iterative solver asked for exactly one eigenpair on the
largest-real-part side, with tolerance `Cf/(k+1)²` when `Cf` is provided and
the solver default otherwise; when `dim < 3` it comes from the dense
full-spectrum decomposition at the argmax of the real parts of the
eigenvalues; in all cases the imaginary component is then discarded (`.re`). -/
theorem extractDir_branches (env : EigEnv R d) (dim : ℕ) (c : R) (Cf : Option R)
    (k : ℕ) (g : Matrix (Fin d) (Fin d) R) :
    (3 ≤ dim → extractDir env dim (some c) k g =
      fun j => (env.eigs g 1 (some (c / ((k : R) + 1) ^ 2)) EigsWhich.LR j).re) ∧
    (3 ≤ dim → extractDir env dim none k g =
      fun j => (env.eigs g 1 none EigsWhich.LR j).re) ∧
    (dim < 3 → extractDir env dim Cf k g =
      fun j => (((env.eig g).getD (argmaxIdx ((env.eig g).map fun p => p.1.re))
        ⟨⟨0, 0⟩, fun _ => ⟨0, 0⟩⟩).2 j).re) := by
  refine ⟨fun h3 => ?_, fun h3 => ?_, fun h3 => ?_⟩
  · simp only [extractDir]
    rw [if_pos h3]
  · simp only [extractDir]
    rw [if_pos h3]
  · simp only [extractDir]
    rw [if_neg (by omega)]

/-- Witness for C7: both branches at concrete inputs (`dim = 3` with a
curvature constant, and `dim = 2` without one), over `ℚ` with the oracle
`trivEnv`. -/
theorem extractDir_branches_witness :
    (extractDir (trivEnv 1) 3 (some (1 : ℚ)) 0 0 =
      fun j => ((trivEnv 1).eigs 0 1 (some ((1 : ℚ) / (((0 : ℕ) : ℚ) + 1) ^ 2))
        EigsWhich.LR j).re) ∧
    (extractDir (trivEnv 1) 2 none 0 0 =
      fun j => ((((trivEnv 1).eig 0).getD
        (argmaxIdx (((trivEnv 1).eig 0).map fun p => p.1.re))
        ⟨⟨0, 0⟩, fun _ => ⟨0, 0⟩⟩).2 j).re) :=
  ⟨(extractDir_branches (trivEnv 1) 3 1 none 0 0).1 (by norm_num),
   (extractDir_branches (trivEnv 1) 2 1 none 0 0).2.2 (by norm_num)⟩

end BoundedTraceSDPHazanSolver

namespace GeneralSDPHazanSolver

/-- C9: for every input and every positive fuel, the embedded
`GeneralSDPHazanSolver.solve` returns the `TypeError` raised by the call
`self._solve(self, As, bs, eps, dim, X_trace)`, which supplies seven
arguments to the six-parameter bound method `_solve`; no inner optimization
runs (the result does not depend on `inner`). -/
theorem solve_typeError {A B C : Type} (As : A) (bs : B) (eps : R) (dim : ℕ)
    (inner : A → B → R → ℕ → R → Except PyError (C × R)) (fuel : ℕ)
    (hfuel : 1 ≤ fuel) :
    solve As bs eps dim inner fuel = some (.error .typeError) := by
  cases fuel with
  | zero => omega
  | succ n => rfl

/-- Witness for C9 at a concrete input. -/
theorem solve_typeError_witness :
    solve () () (1 : ℚ) 1 (fun _ _ _ _ _ => (Except.ok ((), 0) : Except PyError (Unit × ℚ))) 1 =
      some (.error .typeError) :=
  solve_typeError () () (1 : ℚ) 1
    (fun _ _ _ _ _ => (Except.ok ((), 0) : Except PyError (Unit × ℚ))) 1 (by norm_num)

/-- C5 (code-bug record): at the demonstration script's own input
(`As = [1.5]`, `bs = [1.0]`, `eps = 0.1`, `dim = 1`), the embedded
`GeneralSDPHazanSolver.solve` raises `TypeError` at the
`self._solve(self, …)` call: it never obtains `fX`, never reaches the
`fX > -eps` test, and never adjusts `X_trace` (the body resets
`X_trace = 1.` on every iteration and contains no adjustment, despite the
docstring's promised binary search). -/
theorem solve_demo_raises :
    solve [Matrix.of ![![(3 / 2 : ℚ)]]] [(1 : ℚ)] (1 / 10 : ℚ) 1
      (_solve (fun x => x) (fun _ => 0) (trivEnv 1) ![1]) 1 =
      some (.error .typeError) := rfl

/-- C8 counterexample: a call whose constraint matrices are 3×3 while the
declared `dim` is 2 fails with `TypeError` (from the extra `self` argument
of the `_solve` call), not with a `DimensionMismatch` error. -/
theorem solve_mismatch_not_dimensionMismatch :
    (solve [(1 : Matrix (Fin 3) (Fin 3) ℚ)] [(1 : ℚ)] (1 / 10 : ℚ) 2
      (_solve (fun x => x) (fun _ => 0) (trivEnv 3) ![1, 0, 0]) 1 =
      some (.error .typeError)) ∧
    PyError.typeError ≠ PyError.dimensionMismatch :=
  ⟨rfl, by decide⟩

/-- C8 amended: `GeneralSDPHazanSolver.solve` never reports a
`DimensionMismatch` error, for any inputs (matched or mismatched shapes),
any inner solver and any fuel: the source validates no dimensions. -/
theorem solve_never_dimensionMismatch {A B C : Type} (As : A) (bs : B) (eps : R)
    (dim : ℕ) (inner : A → B → R → ℕ → R → Except PyError (C × R)) (fuel : ℕ) :
    solve As bs eps dim inner fuel ≠ some (.error .dimensionMismatch) := by
  cases fuel with
  | zero => simp [solve]
  | succ n =>
    intro h
    rw [show solve As bs eps dim inner (n + 1) = some (.error .typeError) from rfl] at h
    cases Option.some.inj h

/-- Witness for the amended C8 at a concrete input. -/
theorem solve_never_dimensionMismatch_witness :
    solve () () (1 : ℚ) 1
      (fun _ _ _ _ _ => (Except.ok ((), 0) : Except PyError (Unit × ℚ))) 1 ≠
      some (.error .dimensionMismatch) :=
  solve_never_dimensionMismatch () () (1 : ℚ) 1
    (fun _ _ _ _ _ => (Except.ok ((), 0) : Except PyError (Unit × ℚ))) 1

/-- C4 (code-bug record): for `dim = 2` the gradient closure raises
`TypeError`, because the source's `np.trace(Ai, X)` passes the matrix `X` as
the integer `offset` argument of `np.trace`.  Concrete failing input:
`As = [I₂]`, `bs = [0]`, `X_trace = 1`, `M = 1`, evaluated at `X = I₂`. -/
theorem gradfCode_dim2_typeError :
    gradfCode (R := ℚ) (fun x => x) [(1 : Matrix (Fin 2) (Fin 2) ℚ)] [0] 1 1 2 1 =
      .error .typeError := rfl

/-- C3 (code-bug record): with one constraint (`m = 1`, so the temperature
computed by `_solve` at `eps = 1/2` is `M = max(log 1 / (1/2), 1) = 1`),
`As = [I₂]`, `bs = [1]`, `X_trace = 1`, the code's objective at `X = I₂` is
`0`, because `bi` is broadcast-subtracted from every entry inside
`np.trace(np.dot(Ai, X) - bi)` (the exponent becomes `Tr(A·X) − dim·b`),
while the documented formula `-(1/M)·log Σ exp(M·(Tr(X_trace·A·X) − b))`
gives `−1`. -/
theorem fCode_ne_fDoc_dim2 :
    fCode Real.exp Real.log [(1 : Matrix (Fin 2) (Fin 2) ℝ)] [1] 1
        (max (Real.log (([(1 : Matrix (Fin 2) (Fin 2) ℝ)].length : ℕ) : ℝ) / (1 / 2)) 1) 1 = 0 ∧
    fDoc Real.exp Real.log [(1 : Matrix (Fin 2) (Fin 2) ℝ)] [1] 1
        (max (Real.log (([(1 : Matrix (Fin 2) (Fin 2) ℝ)].length : ℕ) : ℝ) / (1 / 2)) 1) 1 = -1 ∧
    fCode Real.exp Real.log [(1 : Matrix (Fin 2) (Fin 2) ℝ)] [1] 1
        (max (Real.log (([(1 : Matrix (Fin 2) (Fin 2) ℝ)].length : ℕ) : ℝ) / (1 / 2)) 1) 1 ≠
      fDoc Real.exp Real.log [(1 : Matrix (Fin 2) (Fin 2) ℝ)] [1] 1
        (max (Real.log (([(1 : Matrix (Fin 2) (Fin 2) ℝ)].length : ℕ) : ℝ) / (1 / 2)) 1) 1 := by
  have hM : max (Real.log (([(1 : Matrix (Fin 2) (Fin 2) ℝ)].length : ℕ) : ℝ) / (1 / 2)) 1 = 1 := by
    norm_num
  have hcode : fCode Real.exp Real.log [(1 : Matrix (Fin 2) (Fin 2) ℝ)] [1] 1 1 1 = 0 := by
    simp [fCode, pySubScalar, List.range_succ, Matrix.trace, Matrix.diag,
      Fin.sum_univ_two, Matrix.one_apply]
    norm_num
  have hdoc : fDoc Real.exp Real.log [(1 : Matrix (Fin 2) (Fin 2) ℝ)] [1] 1 1 1 = -1 := by
    simp [fDoc, List.range_succ, Matrix.trace_one]
    norm_num
  rw [hM]
  refine ⟨hcode, hdoc, ?_⟩
  rw [hcode, hdoc]
  norm_num

/-- C6 counterexample: at `dim = 2`, `eps = 1/2` (so the iteration budget is
`K = 2 ≥ 1`), the inner solve's first gradient evaluation raises
`TypeError`, so `_solve` propagates the error and returns no pair at all. -/
theorem _solve_dim2_error :
    (_solve (fun x => x) (fun _ => (0 : ℚ)) (trivEnv 2) ![1, 0]
      [(1 : Matrix (Fin 2) (Fin 2) ℚ)] [0] (1 / 2) 2 1 = .error .typeError) ∧
    ∀ p : Matrix (Fin 2) (Fin 2) ℚ × ℚ,
      _solve (fun x => x) (fun _ => (0 : ℚ)) (trivEnv 2) ![1, 0]
        [(1 : Matrix (Fin 2) (Fin 2) ℚ)] [0] (1 / 2) 2 1 ≠ .ok p := by
  have hK : ((⌊(1 : ℚ) / (1 / 2)⌋).toNat) = 2 := by
    norm_num
    decide
  have h : _solve (fun x => x) (fun _ => (0 : ℚ)) (trivEnv 2) ![1, 0]
      [(1 : Matrix (Fin 2) (Fin 2) ℚ)] [0] (1 / 2) 2 1 = .error .typeError := by
    simp only [_solve]
    rw [hK]
    rfl
  refine ⟨h, fun p hp => ?_⟩
  rw [h] at hp
  cases hp

/-- C6 amended: whenever the inner bounded-trace solve — invoked with
exactly `K = ⌊1/eps⌋` iterations, the source's `K = int(1/eps)` — returns a
matrix `X0` without raising (always the case for `dim = 1`, and for `K = 0`),
`_solve` returns the pair `(X_trace · X0, f(X0))`, with the surrogate
objective evaluated at the unit-trace `X0` before rescaling.  When
`dim ≥ 2` and `K ≥ 1` the gradient closure raises `TypeError` instead, and
`_solve` propagates it (see the counterexample). -/
theorem _solve_ok_of_inner_ok [FloorRing R] (expf logf : R → R) (env : EigEnv R d)
    (v : Fin d → R) (As : List (Matrix (Fin d) (Fin d) R)) (bs : List R)
    (eps : R) (dim : ℕ) (Xtr : R) (X0 : Matrix (Fin d) (Fin d) R)
    (h : BoundedTraceSDPHazanSolver.solve
      (gradfCode expf As bs Xtr (max (logf (As.length : R) / eps) 1) dim) env dim none v
      ((⌊(1 : R) / eps⌋).toNat) = .ok X0) :
    _solve expf logf env v As bs eps dim Xtr =
      .ok (Xtr • X0, fCode expf logf As bs Xtr (max (logf (As.length : R) / eps) 1) X0) := by
  simp only [_solve]
  rw [h]

/-- Witness for the amended C6 at a concrete input with `eps = 3/2` (so
`K = 0` and the inner solve returns the initialization without error). -/
theorem _solve_ok_of_inner_ok_witness :
    _solve (fun x => x) (fun _ => (0 : ℚ)) (trivEnv 1) ![1]
      [(1 : Matrix (Fin 1) (Fin 1) ℚ)] [0] (3 / 2) 1 2 =
      .ok ((2 : ℚ) • BoundedTraceSDPHazanSolver.initX ![(1 : ℚ)],
        fCode (fun x => x) (fun _ => (0 : ℚ)) [(1 : Matrix (Fin 1) (Fin 1) ℚ)] [0] 2
          (max ((fun _ => (0 : ℚ)) (([(1 : Matrix (Fin 1) (Fin 1) ℚ)].length : ℚ)) / (3 / 2)) 1)
          (BoundedTraceSDPHazanSolver.initX ![(1 : ℚ)])) :=
  _solve_ok_of_inner_ok (fun x => x) (fun _ => (0 : ℚ)) (trivEnv 1) ![1]
    [(1 : Matrix (Fin 1) (Fin 1) ℚ)] [0] (3 / 2) 1 2
    (BoundedTraceSDPHazanSolver.initX ![(1 : ℚ)])
    (by
      have hK : ((⌊(1 : ℚ) / (3 / 2)⌋).toNat) = 0 := by norm_num
      rw [hK]
      rfl)

/-- C10: for every `eps > 1`, the iteration budget `K = int(1/eps)` computed
by `_solve` is zero; the bounded-trace solver invoked with zero iterations
performs no gradient evaluation (the result holds for every gradient
closure, including always-raising ones) and returns exactly the normalized
random rank-one initialization `v vᵀ / Tr(v vᵀ)`; and `_solve` returns that
initialization rescaled, with the objective evaluated at it. -/
theorem _solve_eps_gt_one [FloorRing R] (expf logf : R → R) (env : EigEnv R d)
    (gradf : Matrix (Fin d) (Fin d) R → Except PyError (Matrix (Fin d) (Fin d) R))
    (v : Fin d → R) (As : List (Matrix (Fin d) (Fin d) R)) (bs : List R)
    (eps : R) (dim : ℕ) (Cf : Option R) (Xtr : R) (heps : 1 < eps) :
    ((⌊(1 : R) / eps⌋).toNat = 0) ∧
    BoundedTraceSDPHazanSolver.solve gradf env dim Cf v ((⌊(1 : R) / eps⌋).toNat) =
      .ok (BoundedTraceSDPHazanSolver.initX v) ∧
    _solve expf logf env v As bs eps dim Xtr =
      .ok (Xtr • BoundedTraceSDPHazanSolver.initX v,
        fCode expf logf As bs Xtr (max (logf (As.length : R) / eps) 1)
          (BoundedTraceSDPHazanSolver.initX v)) := by
  have h0 : (0 : R) < eps := lt_trans zero_lt_one heps
  have hfl : ⌊(1 : R) / eps⌋ = 0 := by
    rw [Int.floor_eq_zero_iff, Set.mem_Ico]
    exact ⟨(div_pos zero_lt_one h0).le, by rw [div_lt_one h0]; exact heps⟩
  have hK : (⌊(1 : R) / eps⌋).toNat = 0 := by rw [hfl]; rfl
  refine ⟨hK, ?_, ?_⟩
  · rw [hK]
    rfl
  · simp only [_solve]
    rw [hK]
    rfl

/-- Witness for C10 at `eps = 2` with concrete inputs over `ℚ`. -/
theorem _solve_eps_gt_one_witness :
    ((⌊(1 : ℚ) / 2⌋).toNat = 0) ∧
    BoundedTraceSDPHazanSolver.solve (fun X => .ok X) (trivEnv 1) 1 none ![(1 : ℚ)]
      ((⌊(1 : ℚ) / 2⌋).toNat) = .ok (BoundedTraceSDPHazanSolver.initX ![(1 : ℚ)]) ∧
    _solve (fun x => x) (fun _ => (0 : ℚ)) (trivEnv 1) ![(1 : ℚ)]
      [(1 : Matrix (Fin 1) (Fin 1) ℚ)] [0] 2 1 1 =
      .ok ((1 : ℚ) • BoundedTraceSDPHazanSolver.initX ![(1 : ℚ)],
        fCode (fun x => x) (fun _ => (0 : ℚ)) [(1 : Matrix (Fin 1) (Fin 1) ℚ)] [0] 1
          (max ((fun _ => (0 : ℚ)) (([(1 : Matrix (Fin 1) (Fin 1) ℚ)].length : ℚ)) / 2) 1)
          (BoundedTraceSDPHazanSolver.initX ![(1 : ℚ)])) :=
  _solve_eps_gt_one (fun x => x) (fun _ => (0 : ℚ)) (trivEnv 1) (fun X => .ok X) ![(1 : ℚ)]
    [(1 : Matrix (Fin 1) (Fin 1) ℚ)] [0] 2 1 none 1 (by norm_num)

end GeneralSDPHazanSolver

end Hazan
